import Mathlib

/-!
# Verification of the sqlx cursor paginator

A shallow embedding of `src/lib.rs`, the single source file of the
repository: opaque-cursor encode/decode (URL-safe base64 of a JSON array
of two strings), the `Paginator::paginate` pipeline (limit clamp,
direction flag, query construction, peek technique, next-cursor
assembly), and `parse_cursor`.

Rust strings are modelled as their UTF-8 byte sequences, `List Nat` with
every element below 256.  The external collaborators are modelled at
their interface: the base64 crate engine `BASE64_URL_SAFE` (padded
URL-safe alphabet, canonical decoding), `serde_json` serialization and
deserialization of `Vec<String>` at the byte level, and the storage
engine as a function from the built query to a list of rows or a
failure.
-/

namespace SqlxCursorPaginator

/-- The error type of `service_util::error` as used by `lib.rs`:
`invalid_argument_with_message(msg)` and the opaque `internal()`. -/
inductive PError where
  | invalidArgument (msg : String)
  | internal
  deriving DecidableEq, Repr

deriving instance DecidableEq for Except

/-- `SortOrder` from `lib.rs` lines 8-13. -/
inductive SortOrder where
  | Asc
  | Desc
  deriving DecidableEq, BEq, Repr

/-! ## Base64, URL-safe alphabet, padded

Model of the base64 crate engine `BASE64_URL_SAFE`: `A`-`Z`, `a`-`z`,
`0`-`9`, `-`, `_`, with `=` padding required and canonical (zero)
trailing bits enforced on decode.  Bytes and characters are `Nat`
ASCII/byte values. -/

/-- ASCII character of a 6-bit group under the URL-safe alphabet. -/
def b64Char (n : Nat) : Nat :=
  if n < 26 then 65 + n
  else if n < 52 then 97 + (n - 26)
  else if n < 62 then 48 + (n - 52)
  else if n = 62 then 45
  else 95

/-- Inverse alphabet lookup; `none` on a character outside the URL-safe
alphabet (this is how a decode failure of the crate is modelled). -/
def b64Index (c : Nat) : Option Nat :=
  if 65 ≤ c ∧ c ≤ 90 then some (c - 65)
  else if 97 ≤ c ∧ c ≤ 122 then some (26 + (c - 97))
  else if 48 ≤ c ∧ c ≤ 57 then some (52 + (c - 48))
  else if c = 45 then some 62
  else if c = 95 then some 63
  else none

/-- `BASE64_URL_SAFE.encode`: bytes to ASCII characters, three bytes per
four characters, padded with `=` (ASCII 61). -/
def base64Encode : List Nat → List Nat
  | [] => []
  | [b1] => [b64Char (b1 / 4), b64Char (b1 % 4 * 16), 61, 61]
  | [b1, b2] => [b64Char (b1 / 4), b64Char (b1 % 4 * 16 + b2 / 16),
      b64Char (b2 % 16 * 4), 61]
  | b1 :: b2 :: b3 :: rest =>
      b64Char (b1 / 4) :: b64Char (b1 % 4 * 16 + b2 / 16) ::
      b64Char (b2 % 16 * 4 + b3 / 64) :: b64Char (b3 % 64) ::
      base64Encode rest

/-- `BASE64_URL_SAFE.decode`: requires canonical padding and zero
trailing bits, as the default engine config does; `none` is the crate
returning `Err(DecodeError)`.  Padding (`=`, ASCII 61) is legal only in
the final four-character group; a length that is not a multiple of four
is rejected by the last arm. -/
def base64Decode : List Nat → Option (List Nat)
  | [] => some []
  | c1 :: c2 :: c3 :: c4 :: rest =>
      if rest = [] ∧ c3 = 61 ∧ c4 = 61 then
        match b64Index c1, b64Index c2 with
        | some n1, some n2 =>
            if n2 % 16 = 0 then some [n1 * 4 + n2 / 16] else none
        | _, _ => none
      else if rest = [] ∧ c4 = 61 then
        match b64Index c1, b64Index c2, b64Index c3 with
        | some n1, some n2, some n3 =>
            if n3 % 4 = 0 then
              some [n1 * 4 + n2 / 16, n2 % 16 * 16 + n3 / 4]
            else none
        | _, _, _ => none
      else
        match b64Index c1, b64Index c2, b64Index c3, b64Index c4,
            base64Decode rest with
        | some n1, some n2, some n3, some n4, some tail =>
            some ((n1 * 4 + n2 / 16) :: (n2 % 16 * 16 + n3 / 4) ::
              (n3 % 4 * 64 + n4) :: tail)
        | _, _, _, _, _ => none
  | _ => none

theorem b64Index_b64Char : ∀ n, n < 64 → b64Index (b64Char n) = some n := by
  decide

theorem b64Char_lt (n : Nat) : b64Char n < 256 := by
  unfold b64Char
  split <;> try omega
  split <;> try omega
  split <;> try omega
  split <;> omega

theorem b64Char_ne_61 (n : Nat) : b64Char n ≠ 61 := by
  unfold b64Char
  split <;> try omega
  split <;> try omega
  split <;> try omega
  split <;> omega

theorem base64_roundtrip :
    ∀ bs : List Nat, (∀ b ∈ bs, b < 256) →
      base64Decode (base64Encode bs) = some bs := by
  intro bs
  induction bs using base64Encode.induct with
  | case1 =>
      intro _
      rfl
  | case2 b1 =>
      intro h
      have hb1 : b1 < 256 := h b1 (by simp)
      have h1 : b1 / 4 < 64 := by omega
      have h2 : b1 % 4 * 16 < 64 := by omega
      have e1 : b1 % 4 * 16 % 16 = 0 := by omega
      simp only [base64Encode, base64Decode,
        b64Index_b64Char _ h1, b64Index_b64Char _ h2, e1, and_self, and_true,
        true_and, reduceIte, Option.some.injEq, List.cons.injEq]
      omega
  | case3 b1 b2 =>
      intro h
      have hb1 : b1 < 256 := h b1 (by simp)
      have hb2 : b2 < 256 := h b2 (by simp)
      have h1 : b1 / 4 < 64 := by omega
      have h2 : b1 % 4 * 16 + b2 / 16 < 64 := by omega
      have h3 : b2 % 16 * 4 < 64 := by omega
      have e1 : b2 % 16 * 4 % 4 = 0 := by omega
      simp only [base64Encode, base64Decode,
        b64Index_b64Char _ h1, b64Index_b64Char _ h2, b64Index_b64Char _ h3,
        e1, b64Char_ne_61, and_self, and_true, true_and, and_false, false_and,
        reduceIte, Option.some.injEq, List.cons.injEq]
      omega
  | case4 b1 b2 b3 rest ih =>
      intro h
      have hb1 : b1 < 256 := h b1 (by simp)
      have hb2 : b2 < 256 := h b2 (by simp)
      have hb3 : b3 < 256 := h b3 (by simp)
      have hrest : ∀ b ∈ rest, b < 256 := by
        intro b hb
        exact h b (by simp [hb])
      have h1 : b1 / 4 < 64 := by omega
      have h2 : b1 % 4 * 16 + b2 / 16 < 64 := by omega
      have h3 : b2 % 16 * 4 + b3 / 64 < 64 := by omega
      have h4 : b3 % 64 < 64 := by omega
      simp only [base64Encode, base64Decode,
        b64Index_b64Char _ h1, b64Index_b64Char _ h2, b64Index_b64Char _ h3,
        b64Index_b64Char _ h4, ih hrest, b64Char_ne_61, and_self, and_true,
        true_and, and_false, false_and, reduceIte,
        Option.some.injEq, List.cons.injEq]
      omega

/-! ## JSON serialization and deserialization of `Vec<String>`

Model of the `serde_json` operations `lib.rs` uses: `to_vec` on a
vector of strings (line 138) and `from_slice::<Vec<String>>` (line 163),
at the byte level.  A Rust `String` is valid UTF-8 by construction, so a
string value is its byte sequence; the serializer escapes `"`, a
backslash, the short control escapes, and the remaining control bytes as
a lowercase `\u00xx` sequence, exactly the escape table of
`serde_json`.  The parser accepts a JSON array of strings with optional
interspersed whitespace and the full escape repertoire (including a
`\uXXXX` scalar, decoded to UTF-8); a lone surrogate escape is rejected
(`serde_json` accepts only a paired one, a case the repository encoder
never produces; the pairing rule is elided here), and `serde_json`'s
re-validation of UTF-8 in the input is elided, since both sides of
every claim quantify over byte sequences.  Any input outside this shape
yields `none`, the model of a `serde_json::Error`. -/

/-- Lowercase hex digit, as serde_json emits in a control escape. -/
def hexDigit (n : Nat) : Nat := if n < 10 then 48 + n else 97 + (n - 10)

/-- Hex digit value; both letter cases are accepted on parse. -/
def hexVal (c : Nat) : Option Nat :=
  if 48 ≤ c ∧ c ≤ 57 then some (c - 48)
  else if 97 ≤ c ∧ c ≤ 102 then some (10 + (c - 97))
  else if 65 ≤ c ∧ c ≤ 70 then some (10 + (c - 65))
  else none

def escByte (b : Nat) : List Nat :=
  if b = 34 then [92, 34]
  else if b = 92 then [92, 92]
  else if b = 8 then [92, 98]
  else if b = 9 then [92, 116]
  else if b = 10 then [92, 110]
  else if b = 12 then [92, 102]
  else if b = 13 then [92, 114]
  else if b < 32 then [92, 117, 48, 48, hexDigit (b / 16), hexDigit (b % 16)]
  else [b]

def escapeString : List Nat → List Nat
  | [] => []
  | b :: rest => escByte b ++ escapeString rest

def jsonString (v : List Nat) : List Nat := 34 :: (escapeString v ++ [34])

def jsonEncodeRest : List (List Nat) → List Nat
  | [] => []
  | v :: rest => 44 :: (jsonString v ++ jsonEncodeRest rest)

def jsonEncodeStrings : List (List Nat) → List Nat
  | [] => [91, 93]
  | v :: rest => 91 :: (jsonString v ++ jsonEncodeRest rest ++ [93])

def utf8Encode (n : Nat) : List Nat :=
  if n < 128 then [n]
  else if n < 2048 then [192 + n / 64, 128 + n % 64]
  else [224 + n / 4096, 128 + n / 64 % 64, 128 + n % 64]

def parseJString : List Nat → Option (List Nat × List Nat)
  | [] => none
  | b :: rest =>
      if b = 34 then some ([], rest)
      else if b = 92 then
        match rest with
        | [] => none
        | e :: rest2 =>
            if e = 34 then (parseJString rest2).map (fun p => (34 :: p.1, p.2))
            else if e = 92 then (parseJString rest2).map (fun p => (92 :: p.1, p.2))
            else if e = 47 then (parseJString rest2).map (fun p => (47 :: p.1, p.2))
            else if e = 98 then (parseJString rest2).map (fun p => (8 :: p.1, p.2))
            else if e = 102 then (parseJString rest2).map (fun p => (12 :: p.1, p.2))
            else if e = 110 then (parseJString rest2).map (fun p => (10 :: p.1, p.2))
            else if e = 114 then (parseJString rest2).map (fun p => (13 :: p.1, p.2))
            else if e = 116 then (parseJString rest2).map (fun p => (9 :: p.1, p.2))
            else if e = 117 then
              match rest2 with
              | h1 :: h2 :: h3 :: h4 :: rest3 =>
                  match hexVal h1, hexVal h2, hexVal h3, hexVal h4 with
                  | some a1, some a2, some a3, some a4 =>
                      if 55296 ≤ a1 * 4096 + a2 * 256 + a3 * 16 + a4 ∧
                          a1 * 4096 + a2 * 256 + a3 * 16 + a4 ≤ 57343 then none
                      else
                        (parseJString rest3).map
                          (fun p => (utf8Encode (a1 * 4096 + a2 * 256 + a3 * 16 + a4) ++ p.1, p.2))
                  | _, _, _, _ => none
              | _ => none
            else none
      else if b < 32 then none
      else (parseJString rest).map (fun p => (b :: p.1, p.2))

def skipWs : List Nat → List Nat
  | [] => []
  | b :: rest => if b = 32 ∨ b = 9 ∨ b = 10 ∨ b = 13 then skipWs rest else b :: rest

def parseItems : Nat → List Nat → Option (List (List Nat) × List Nat)
  | 0, _ => none
  | fuel + 1, l =>
      match l with
      | 34 :: rest =>
          match parseJString rest with
          | some (s, r) =>
              match skipWs r with
              | 44 :: r2 =>
                  match parseItems fuel (skipWs r2) with
                  | some (ss, rr) => some (s :: ss, rr)
                  | none => none
              | 93 :: r2 => some ([s], r2)
              | _ => none
          | none => none
      | _ => none

def jsonParseStrings (bytes : List Nat) : Option (List (List Nat)) :=
  match skipWs bytes with
  | 91 :: rest =>
      match skipWs rest with
      | 93 :: r2 => if skipWs r2 = [] then some [] else none
      | other =>
          match parseItems (bytes.length + 1) other with
          | some (vs, r) => if skipWs r = [] then some vs else none
          | none => none
  | _ => none


theorem hexVal_hexDigit : ∀ x, x < 16 → hexVal (hexDigit x) = some x := by
  decide

theorem parseJString_cons (b : Nat) (tail v rest : List Nat) (hb : b < 256)
    (ih : parseJString tail = some (v, rest)) :
    parseJString (escByte b ++ tail) = some (b :: v, rest) := by
  by_cases h34 : b = 34
  · subst h34; rw [show escByte 34 ++ tail = 92 :: 34 :: tail from rfl, parseJString.eq_def]; simp [ih]
  by_cases h92 : b = 92
  · subst h92; rw [show escByte 92 ++ tail = 92 :: 92 :: tail from rfl, parseJString.eq_def]; simp [ih]
  by_cases h8 : b = 8
  · subst h8; rw [show escByte 8 ++ tail = 92 :: 98 :: tail from rfl, parseJString.eq_def]; simp [ih]
  by_cases h9 : b = 9
  · subst h9; rw [show escByte 9 ++ tail = 92 :: 116 :: tail from rfl, parseJString.eq_def]; simp [ih]
  by_cases h10 : b = 10
  · subst h10; rw [show escByte 10 ++ tail = 92 :: 110 :: tail from rfl, parseJString.eq_def]; simp [ih]
  by_cases h12 : b = 12
  · subst h12; rw [show escByte 12 ++ tail = 92 :: 102 :: tail from rfl, parseJString.eq_def]; simp [ih]
  by_cases h13 : b = 13
  · subst h13; rw [show escByte 13 ++ tail = 92 :: 114 :: tail from rfl, parseJString.eq_def]; simp [ih]
  by_cases hlt : b < 32
  · have hd1 : b / 16 < 16 := by omega
    have hd2 : b % 16 < 16 := by omega
    have hb16 : b / 16 * 16 + b % 16 = b := by omega
    simp only [escByte, if_neg h34, if_neg h92, if_neg h8, if_neg h9, if_neg h10,
      if_neg h12, if_neg h13, if_pos hlt, List.cons_append, List.nil_append]
    rw [parseJString.eq_def]
    simp only [show hexVal 48 = some 0 from rfl, reduceIte,
      hexVal_hexDigit _ hd1, hexVal_hexDigit _ hd2]
    norm_num [hb16]
    have hu : utf8Encode b = [b] := by
      simp only [utf8Encode]
      rw [if_pos (show b < 128 by omega)]
    exact ⟨by omega, v, ih, by simp [hu]⟩
  · simp only [escByte, if_neg h34, if_neg h92, if_neg h8, if_neg h9, if_neg h10,
      if_neg h12, if_neg h13, if_neg hlt, List.cons_append, List.nil_append]
    rw [parseJString.eq_def]
    simp [h34, h92, hlt, ih]

theorem parseJString_escape (v : List Nat) :
    ∀ rest, (∀ b ∈ v, b < 256) →
      parseJString (escapeString v ++ 34 :: rest) = some (v, rest) := by
  induction v with
  | nil =>
      intro rest _
      rw [show escapeString [] ++ 34 :: rest = 34 :: rest from rfl, parseJString.eq_def]
      simp
  | cons b v ih =>
      intro rest h
      have hb : b < 256 := h b (by simp)
      have hv : ∀ x ∈ v, x < 256 := fun x hx => h x (by simp [hx])
      have := parseJString_cons b (escapeString v ++ 34 :: rest) v rest hb (ih rest hv)
      simpa [escapeString, List.append_assoc] using this

theorem parseItems_single (fuel : Nat) (v r : List Nat) (h : ∀ b ∈ v, b < 256) :
    parseItems (fuel + 1) (34 :: (escapeString v ++ 34 :: 93 :: r)) = some ([v], r) := by
  rw [parseItems.eq_def]
  simp only [parseJString_escape v _ h]
  simp only [show skipWs (93 :: r) = 93 :: r from rfl]

theorem parseItems_pair (fuel : Nat) (v1 v2 r : List Nat)
    (h1 : ∀ b ∈ v1, b < 256) (h2 : ∀ b ∈ v2, b < 256) :
    parseItems (fuel + 2)
      (34 :: (escapeString v1 ++ 34 :: 44 :: 34 :: (escapeString v2 ++ 34 :: 93 :: r))) =
      some ([v1, v2], r) := by
  rw [show fuel + 2 = (fuel + 1) + 1 from rfl, parseItems.eq_def]
  simp only [parseJString_escape v1 _ h1]
  simp only [show skipWs (44 :: 34 :: (escapeString v2 ++ 34 :: 93 :: r)) =
    44 :: 34 :: (escapeString v2 ++ 34 :: 93 :: r) from rfl]
  simp only [show skipWs (34 :: (escapeString v2 ++ 34 :: 93 :: r)) =
    34 :: (escapeString v2 ++ 34 :: 93 :: r) from rfl]
  simp only [parseItems_single fuel v2 r h2]

theorem jsonParse_encodePair (v1 v2 : List Nat)
    (h1 : ∀ b ∈ v1, b < 256) (h2 : ∀ b ∈ v2, b < 256) :
    jsonParseStrings (jsonEncodeStrings [v1, v2]) = some [v1, v2] := by
  have hshape : jsonEncodeStrings [v1, v2] =
      91 :: (34 :: (escapeString v1 ++ 34 :: 44 :: 34 :: (escapeString v2 ++ 34 :: 93 :: []))) := by
    simp [jsonEncodeStrings, jsonEncodeRest, jsonString]
  rw [hshape]
  simp only [jsonParseStrings]
  simp only [show ∀ l : List Nat, skipWs (91 :: l) = 91 :: l from fun _ => rfl,
    show ∀ l : List Nat, skipWs (34 :: l) = 34 :: l from fun _ => rfl]
  have hlen : (91 :: 34 :: (escapeString v1 ++ 34 :: 44 :: 34 :: (escapeString v2 ++ [34, 93]))).length + 1
      = ((escapeString v1 ++ 34 :: 44 :: 34 :: (escapeString v2 ++ [34, 93])).length + 1) + 2 := by
    simp [List.length_cons]
  rw [hlen, parseItems_pair _ v1 v2 [] h1 h2]
  rfl

set_option maxRecDepth 4000 in
theorem escByte_lt : ∀ b, b < 256 → ∀ c ∈ escByte b, c < 256 := by
  decide

theorem escapeString_lt (v : List Nat) (hv : ∀ b ∈ v, b < 256) :
    ∀ c ∈ escapeString v, c < 256 := by
  induction v with
  | nil => simp [escapeString]
  | cons b v ih =>
      intro c hc
      simp only [escapeString, List.mem_append] at hc
      rcases hc with hc | hc
      · exact escByte_lt b (hv b (by simp)) c hc
      · exact ih (fun x hx => hv x (by simp [hx])) c hc

theorem jsonString_lt (v : List Nat) (hv : ∀ b ∈ v, b < 256) :
    ∀ c ∈ jsonString v, c < 256 := by
  intro c hc
  simp only [jsonString, List.mem_cons, List.mem_append, List.mem_singleton] at hc
  rcases hc with h | h | h | h
  · omega
  · exact escapeString_lt v hv c h
  · omega
  · simp at h

theorem jsonEncodeRest_lt (vs : List (List Nat))
    (h : ∀ v ∈ vs, ∀ b ∈ v, b < 256) : ∀ c ∈ jsonEncodeRest vs, c < 256 := by
  induction vs with
  | nil => simp [jsonEncodeRest]
  | cons v vs ih =>
      intro c hc
      simp only [jsonEncodeRest, List.mem_cons, List.mem_append] at hc
      rcases hc with h1 | h1 | h1
      · omega
      · exact jsonString_lt v (h v (by simp)) c h1
      · exact ih (fun w hw => h w (by simp [hw])) c h1

theorem jsonEncodeStrings_lt (vs : List (List Nat))
    (h : ∀ v ∈ vs, ∀ b ∈ v, b < 256) : ∀ c ∈ jsonEncodeStrings vs, c < 256 := by
  cases vs with
  | nil =>
      intro c hc
      simp only [jsonEncodeStrings, List.mem_cons, List.mem_singleton] at hc
      rcases hc with h | h | h
      · omega
      · omega
      · simp at h
  | cons v vs =>
      intro c hc
      simp only [jsonEncodeStrings, List.mem_cons, List.mem_append,
        List.append_assoc, List.mem_singleton] at hc
      rcases hc with h1 | h1 | h1 | h1 | h1
      · omega
      · exact jsonString_lt v (h v (by simp)) c h1
      · exact jsonEncodeRest_lt vs (fun w hw => h w (by simp [hw])) c h1
      · omega
      · simp at h1

/-! ## The cursor codec -/

/-- `parse_cursor`, `lib.rs` lines 155-175: URL-safe base64 decode, then
JSON-parse as a vector of strings, then require exactly two elements;
every failure is `invalid_argument_with_message("invalid cursor")`. -/
def parse_cursor (cursor : List Nat) : Except PError (List (List Nat)) :=
  match base64Decode cursor with
  | none => .error (.invalidArgument "invalid cursor")
  | some bytes =>
      match jsonParseStrings bytes with
      | none => .error (.invalidArgument "invalid cursor")
      | some values =>
          if values.length ≠ 2 then .error (.invalidArgument "invalid cursor")
          else .ok values

/-- The next-cursor encoder inlined in `Paginator::paginate`, `lib.rs`
lines 136-147: `serde_json::to_vec(&vec![key1, key2])` followed by
`BASE64_URL_SAFE.encode`. -/
def encodeCursor (v1 v2 : List Nat) : List Nat :=
  base64Encode (jsonEncodeStrings [v1, v2])

theorem encodeCursor_bytes_lt (v1 v2 : List Nat)
    (h1 : ∀ b ∈ v1, b < 256) (h2 : ∀ b ∈ v2, b < 256) :
    ∀ c ∈ jsonEncodeStrings [v1, v2], c < 256 := by
  refine jsonEncodeStrings_lt [v1, v2] ?_
  intro v hv
  simp only [List.mem_cons] at hv
  rcases hv with rfl | rfl | hv
  · exact h1
  · exact h2
  · simp at hv

theorem parse_cursor_length (c : List Nat) (vs : List (List Nat))
    (h : parse_cursor c = .ok vs) : vs.length = 2 := by
  unfold parse_cursor at h
  rcases hd : base64Decode c with _ | bytes
  · simp [hd] at h
  simp only [hd] at h
  rcases hj : jsonParseStrings bytes with _ | values
  · simp [hj] at h
  simp only [hj] at h
  by_cases hl : values.length = 2
  · rw [if_neg (by omega)] at h
    cases h
    exact hl
  · rw [if_pos hl] at h
    cases h

theorem base64Encode_inj (as bs : List Nat)
    (ha : ∀ b ∈ as, b < 256) (hb : ∀ b ∈ bs, b < 256)
    (h : base64Encode as = base64Encode bs) : as = bs := by
  have h1 := base64_roundtrip as ha
  rw [h, base64_roundtrip bs hb] at h1
  exact (Option.some.inj h1).symm

/-! ## The paginator

`Paginator::paginate` (`lib.rs` lines 64-152) is split here into the
stages of its single pass, in source order: `buildQuery` covers lines
83-115 (cursor decode, direction flag, limit clamp, query-fragment
construction), the fetch dispatch covers lines 117-123, and
`assemblePage` covers lines 125-151 (peek discard, next-cursor
encoding).  The `sqlx_page::Pagination` query fragment is modelled as
the record of what the builder pushes onto the SQL query: the
comparison-direction flag, the row limit, the ordering columns, and the
optional composite-key range predicate; the storage engine
(`fetch_all`) is a caller-supplied function from that record to rows or
a failure, with the failure value standing for the `sqlx::Error`
display string. -/

/-- `PaginationRequest`, `lib.rs` lines 15-23; `limit` is `Option<u32>`. -/
structure PaginationRequest where
  cursor : Option (List Nat)
  limit : Option Nat
  sort_by : Option String
  sort_order : Option SortOrder
  deriving DecidableEq

/-- `PaginationResponse<T>`, `lib.rs` lines 25-29. -/
structure PaginationResponse (T : Type) where
  data : List T
  next_cursor : Option (List Nat)
  deriving DecidableEq

/-- `Paginator<T>`, `lib.rs` lines 31-35. -/
structure Paginator (T : Type) where
  keys_ : String × String
  retrieve_keys_ : T → List Nat × List Nat
  request_ : PaginationRequest

/-- The limit clamp, `lib.rs` lines 93-98: start from 10 and overwrite
with the caller value only when it lies in `(0, 100]`. -/
def effectiveLimit (l : Option Nat) : Nat :=
  match l with
  | some l => if 0 < l ∧ l ≤ 100 then l else 10
  | none => 10

/-- The direction flag, `lib.rs` lines 88-91: start from `true` and
overwrite with `sort_order == Desc` only when a sort order is given. -/
def smallerFlag (o : Option SortOrder) : Bool :=
  match o with
  | some o => o == SortOrder.Desc
  | none => true

/-- What `paginate` pushes onto the SQL query through
`sqlx_page::Pagination` (`lib.rs` lines 102-115): the direction flag and
row limit of `Pagination::new`, the ordering columns, and the optional
composite-key range predicate of `push_where2`. -/
structure BuiltQuery (K1 K2 : Type) where
  smaller : Bool
  fetchLimit : Nat
  orderKeys : List String
  keyRange : Option (K1 × K2)
  deriving DecidableEq

/-- Lines 83-115 of `paginate`: decode the cursor when present, compute
the direction flag and the clamped limit, parse the two cursor values
into typed keys, and attach the range predicate exactly when the decoded
cursor has two values.  `parseKey1`/`parseKey2` stand for the
`parse_key::<K1>`/`parse_key::<K2>` calls on lines 108-109. -/
def buildQuery {T K1 K2 : Type} (P : Paginator T)
    (parseKey1 : List Nat → Except PError K1)
    (parseKey2 : List Nat → Except PError K2) :
    Except PError (BuiltQuery K1 K2) :=
  match (match P.request_.cursor with
         | some cursor => parse_cursor cursor
         | none => Except.ok []) with
  | .error e => .error e
  | .ok cursor_values =>
      if cursor_values.length = 2 then
        match parseKey1 (cursor_values.getD 0 []) with
        | .error e => .error e
        | .ok k1 =>
            match parseKey2 (cursor_values.getD 1 []) with
            | .error e => .error e
            | .ok k2 =>
                .ok ⟨smallerFlag P.request_.sort_order,
                  effectiveLimit P.request_.limit + 1,
                  [P.keys_.1, P.keys_.2], some (k1, k2)⟩
      else
        .ok ⟨smallerFlag P.request_.sort_order,
          effectiveLimit P.request_.limit + 1,
          [P.keys_.1, P.keys_.2], none⟩

/-- `serde_json::to_vec(&keys)` on line 138.  Serialization of a vector
of strings has no failure path (string escaping writes into a byte
vector, which cannot error), so the `Result` is always `Ok`; the `Err`
arm of the source match is kept in `assemblePage` below. -/
def serializeCursorJson (keys : List (List Nat)) : Except String (List Nat) :=
  .ok (jsonEncodeStrings keys)

/-- Lines 125-151 of `paginate`: when exactly `limit + 1` rows came
back, drop the extra last row and encode the new last row of the page as
the next cursor; otherwise return the rows with no cursor. -/
def assemblePage {T : Type} (retrieve : T → List Nat × List Nat)
    (limit : Nat) (data : List T) : Except PError (PaginationResponse T) :=
  if data.length = limit + 1 then
    match data.dropLast.getLast? with
    | some last =>
        match serializeCursorJson [(retrieve last).1, (retrieve last).2] with
        | .ok cursor_json => .ok ⟨data.dropLast, some (base64Encode cursor_json)⟩
        | .error _ => .error .internal
    | none => .ok ⟨data.dropLast, none⟩
  else .ok ⟨data, none⟩

/-- `Paginator::paginate`, `lib.rs` lines 64-152: build the query, run
it through the storage engine (`fetch`), map an execution failure to the
opaque internal error (lines 117-123), and assemble the page. -/
def paginate {T K1 K2 : Type} (P : Paginator T)
    (parseKey1 : List Nat → Except PError K1)
    (parseKey2 : List Nat → Except PError K2)
    (fetch : BuiltQuery K1 K2 → Except String (List T)) :
    Except PError (PaginationResponse T) :=
  match buildQuery P parseKey1 parseKey2 with
  | .error e => .error e
  | .ok query =>
      match fetch query with
      | .error _ => .error .internal
      | .ok data =>
          assemblePage P.retrieve_keys_ (effectiveLimit P.request_.limit) data

/-- `impl KeyParse for String`, `lib.rs` lines 181-185: the identity
parse, which always succeeds. -/
def parseKeyString (key : List Nat) : Except PError (List Nat) :=
  .ok key

/-! ## Pipeline lemmas -/

theorem effectiveLimit_pos (l : Option Nat) : 1 ≤ effectiveLimit l := by
  rcases l with _ | v
  · simp [effectiveLimit]
  · simp only [effectiveLimit]
    split <;> omega

theorem parse_cursor_error (c : List Nat) (e : PError)
    (h : parse_cursor c = .error e) : e = .invalidArgument "invalid cursor" := by
  unfold parse_cursor at h
  rcases hd : base64Decode c with _ | bytes
  · simp only [hd] at h
    cases h
    rfl
  simp only [hd] at h
  rcases hj : jsonParseStrings bytes with _ | values
  · simp only [hj] at h
    cases h
    rfl
  simp only [hj] at h
  by_cases hl : values.length = 2
  · rw [if_neg (by omega)] at h
    cases h
  · rw [if_pos hl] at h
    cases h
    rfl

/-- The shape of every successfully built query: the direction flag and
order columns from the request, the peek limit, and a range predicate
exactly when the request carried a cursor. -/
theorem buildQuery_ok {T K1 K2 : Type} (P : Paginator T)
    (pk1 : List Nat → Except PError K1) (pk2 : List Nat → Except PError K2)
    (q : BuiltQuery K1 K2) (h : buildQuery P pk1 pk2 = .ok q) :
    q.smaller = smallerFlag P.request_.sort_order ∧
    q.fetchLimit = effectiveLimit P.request_.limit + 1 ∧
    q.orderKeys = [P.keys_.1, P.keys_.2] ∧
    (q.keyRange.isSome ↔ P.request_.cursor.isSome) := by
  unfold buildQuery at h
  rcases hc : P.request_.cursor with _ | cursor
  · simp only [hc] at h
    rw [if_neg (by simp)] at h
    cases h
    simp [hc]
  · simp only [hc] at h
    rcases hpc : parse_cursor cursor with e | vs
    · simp [hpc] at h
    simp only [hpc] at h
    have hl : vs.length = 2 := parse_cursor_length cursor vs hpc
    rw [if_pos hl] at h
    rcases hk1 : pk1 (vs.getD 0 []) with e | k1
    · rw [hk1] at h
      cases h
    rw [hk1] at h
    rcases hk2 : pk2 (vs.getD 1 []) with e | k2
    · rw [hk2] at h
      cases h
    rw [hk2] at h
    cases h
    simp [hc]

/-- A failed query build comes from cursor decoding (always the
invalid-cursor error) or from one of the key parsers. -/
theorem buildQuery_error {T K1 K2 : Type} (P : Paginator T)
    (pk1 : List Nat → Except PError K1) (pk2 : List Nat → Except PError K2)
    (e : PError) (h : buildQuery P pk1 pk2 = .error e) :
    e = .invalidArgument "invalid cursor" ∨
    (∃ s, pk1 s = .error e) ∨ (∃ s, pk2 s = .error e) := by
  unfold buildQuery at h
  rcases hc : P.request_.cursor with _ | cursor
  · simp only [hc] at h
    rw [if_neg (by simp)] at h
    cases h
  · simp only [hc] at h
    rcases hpc : parse_cursor cursor with e2 | vs
    · simp only [hpc] at h
      cases h
      exact Or.inl (parse_cursor_error cursor e hpc)
    simp only [hpc] at h
    have hl : vs.length = 2 := parse_cursor_length cursor vs hpc
    rw [if_pos hl] at h
    rcases hk1 : pk1 (vs.getD 0 []) with e2 | k1
    · rw [hk1] at h
      cases h
      exact Or.inr (Or.inl ⟨vs.getD 0 [], hk1⟩)
    rw [hk1] at h
    rcases hk2 : pk2 (vs.getD 1 []) with e2 | k2
    · rw [hk2] at h
      cases h
      exact Or.inr (Or.inr ⟨vs.getD 1 [], hk2⟩)
    rw [hk2] at h
    cases h

/-- Page assembly never fails: the serialization arm is always `Ok`. -/
theorem assemblePage_ok {T : Type} (retrieve : T → List Nat × List Nat)
    (limit : Nat) (data : List T) :
    ∃ resp, assemblePage retrieve limit data = .ok resp := by
  unfold assemblePage serializeCursorJson
  by_cases h : data.length = limit + 1
  · rw [if_pos h]
    rcases hx : data.dropLast.getLast? with _ | last
    · exact ⟨_, rfl⟩
    · exact ⟨_, rfl⟩
  · rw [if_neg h]
    exact ⟨_, rfl⟩

theorem assemblePage_length {T : Type} (retrieve : T → List Nat × List Nat)
    (limit : Nat) (data : List T) (resp : PaginationResponse T)
    (h : assemblePage retrieve limit data = .ok resp)
    (hb : data.length ≤ limit + 1) : resp.data.length ≤ limit := by
  unfold assemblePage serializeCursorJson at h
  by_cases hl : data.length = limit + 1
  · rw [if_pos hl] at h
    rcases hx : data.dropLast.getLast? with _ | last
    · simp only [hx] at h
      cases h
      simp only [List.length_dropLast]
      omega
    · simp only [hx] at h
      cases h
      simp only [List.length_dropLast]
      omega
  · rw [if_neg hl] at h
    cases h
    show data.length ≤ limit
    omega

/-! ## Fixtures for the witnesses -/

/-- A paginator over `Nat` rows with the given request. -/
def exPaginatorReq (r : PaginationRequest) : Paginator Nat :=
  ⟨("created_at", "id"), fun n => ([48 + n % 10], [48]), r⟩

/-- A paginator with an empty request: no cursor, no limit, no order. -/
def exPaginator : Paginator Nat :=
  exPaginatorReq ⟨none, none, none, none⟩

/-- A storage stub returning a fixed row list. -/
def exFetch (rows : List Nat) :
    BuiltQuery (List Nat) (List Nat) → Except String (List Nat) :=
  fun _ => .ok rows

/-- A storage stub honoring the requested row limit over an 11-row
table. -/
def exPeekFetch : BuiltQuery (List Nat) (List Nat) → Except String (List Nat) :=
  fun q => .ok (List.range (min q.fetchLimit 11))

/-! ## The claims -/

/-- C1: Cursor round-trip: for every pair of strings `(v1, v2)` (byte
sequences of a Rust `String`), encoding them as the next cursor (UTF-8
JSON array of the two strings, then URL-safe base64) and then decoding
with `parse_cursor` succeeds and returns exactly the pair `(v1, v2)`. -/
theorem claim_C1_cursor_roundtrip (v1 v2 : List Nat)
    (h1 : ∀ b ∈ v1, b < 256) (h2 : ∀ b ∈ v2, b < 256) :
    parse_cursor (encodeCursor v1 v2) = .ok [v1, v2] := by
  unfold encodeCursor parse_cursor
  simp only [base64_roundtrip _ (encodeCursor_bytes_lt v1 v2 h1 h2),
    jsonParse_encodePair v1 v2 h1 h2]
  simp

theorem claim_C1_witness :
    (∀ b ∈ [104, 226, 5], b < 256) ∧ (∀ b ∈ [34, 92], b < 256) ∧
    parse_cursor (encodeCursor [104, 226, 5] [34, 92]) =
      .ok [[104, 226, 5], [34, 92]] :=
  ⟨by decide, by decide,
    claim_C1_cursor_roundtrip [104, 226, 5] [34, 92] (by decide) (by decide)⟩

/-- C3 counterexample: the claim quantifies over every string not
produced by the cursor encoder.  The base64 encoding of the payload
` ["a","b"]` (note the leading space) is such a string — the encoder
always emits a payload starting with `[` — yet `parse_cursor` accepts
it and returns `("a", "b")` rather than an `InvalidArgument` error. -/
theorem claim_C3_counterexample :
    parse_cursor (base64Encode [32, 91, 34, 97, 34, 44, 34, 98, 34, 93]) =
      .ok [[97], [98]] ∧
    ∀ v1 v2 : List Nat, (∀ b ∈ v1, b < 256) → (∀ b ∈ v2, b < 256) →
      encodeCursor v1 v2 ≠ base64Encode [32, 91, 34, 97, 34, 44, 34, 98, 34, 93] := by
  constructor
  · decide
  · intro v1 v2 h1 h2 heq
    have hp : jsonEncodeStrings [v1, v2] = [32, 91, 34, 97, 34, 44, 34, 98, 34, 93] :=
      base64Encode_inj _ _ (encodeCursor_bytes_lt v1 v2 h1 h2) (by decide) heq
    simp [jsonEncodeStrings] at hp

/-- C3 (amended): for every string whose URL-safe base64 decoding
fails, or whose decoded payload does not parse as a JSON array of
strings, or whose decoded array does not have exactly 2 elements,
`parse_cursor` returns the `InvalidArgument` error (it is a total
function, so it never panics and returns no value on such strings);
strings outside the encoder image that decode to a well-formed
2-element array — e.g. with extra whitespace — are however accepted. -/
theorem claim_C3_malformed_rejected (c : List Nat)
    (h : match base64Decode c with
         | none => True
         | some bytes =>
             match jsonParseStrings bytes with
             | none => True
             | some vs => vs.length ≠ 2) :
    parse_cursor c = .error (.invalidArgument "invalid cursor") := by
  unfold parse_cursor
  rcases hd : base64Decode c with _ | bytes
  · simp only [hd]
  simp only [hd] at h ⊢
  rcases hj : jsonParseStrings bytes with _ | values
  · simp only [hj]
  simp only [hj] at h ⊢
  rw [if_pos h]

theorem claim_C3_witness :
    parse_cursor [33] = .error (.invalidArgument "invalid cursor") :=
  claim_C3_malformed_rejected [33] True.intro

/-- C2: Next-cursor presence: for every paginate call that succeeds
after its storage query returned `rows`, the response has `next_cursor`
present if and only if the query returned exactly
`effective_limit + 1` rows; when present, it encodes the composite-key
pair extracted by the caller-supplied `retrieve_keys_` from the last
row of the returned page, the extra row having been discarded. -/
theorem claim_C2_next_cursor {T K1 K2 : Type} (P : Paginator T)
    (pk1 : List Nat → Except PError K1) (pk2 : List Nat → Except PError K2)
    (fetch : BuiltQuery K1 K2 → Except String (List T))
    (q : BuiltQuery K1 K2) (rows : List T)
    (hq : buildQuery P pk1 pk2 = .ok q) (hf : fetch q = .ok rows) :
    ∃ resp : PaginationResponse T,
      paginate P pk1 pk2 fetch = .ok resp ∧
      (resp.next_cursor.isSome ↔
        rows.length = effectiveLimit P.request_.limit + 1) ∧
      (rows.length = effectiveLimit P.request_.limit + 1 →
        resp.data = rows.dropLast ∧
        ∀ last, rows.dropLast.getLast? = some last →
          resp.next_cursor = some (encodeCursor (P.retrieve_keys_ last).1
            (P.retrieve_keys_ last).2)) := by
  unfold paginate
  simp only [hq, hf]
  by_cases hlen : rows.length = effectiveLimit P.request_.limit + 1
  · have hL1 : 1 ≤ effectiveLimit P.request_.limit := effectiveLimit_pos _
    have hdl : rows.dropLast.length = effectiveLimit P.request_.limit := by
      simp only [List.length_dropLast]
      omega
    rcases hx : rows.dropLast.getLast? with _ | last
    · exfalso
      have hnil : rows.dropLast = [] := List.getLast?_eq_none_iff.mp hx
      rw [hnil] at hdl
      simp at hdl
      omega
    · refine ⟨⟨rows.dropLast, some (encodeCursor (P.retrieve_keys_ last).1
        (P.retrieve_keys_ last).2)⟩, ?_, ?_, ?_⟩
      · unfold assemblePage serializeCursorJson
        rw [if_pos hlen]
        simp only [hx]
        rfl
      · simp [hlen]
      · intro _
        refine ⟨rfl, fun last2 hx2 => ?_⟩
        cases hx2
        rfl
  · refine ⟨⟨rows, none⟩, ?_, ?_, ?_⟩
    · unfold assemblePage
      rw [if_neg hlen]
    · simp [hlen]
    · intro hcon
      exact absurd hcon hlen

theorem claim_C2_witness :
    ∃ resp : PaginationResponse Nat,
      paginate exPaginator parseKeyString parseKeyString
        (exFetch (List.range 11)) = .ok resp ∧
      (resp.next_cursor.isSome ↔
        (List.range 11).length = effectiveLimit exPaginator.request_.limit + 1) ∧
      ((List.range 11).length = effectiveLimit exPaginator.request_.limit + 1 →
        resp.data = (List.range 11).dropLast ∧
        ∀ last, (List.range 11).dropLast.getLast? = some last →
          resp.next_cursor = some (encodeCursor
            (exPaginator.retrieve_keys_ last).1
            (exPaginator.retrieve_keys_ last).2)) :=
  claim_C2_next_cursor exPaginator parseKeyString parseKeyString
    (exFetch (List.range 11)) ⟨true, 11, ["created_at", "id"], none⟩
    (List.range 11) (by decide) rfl

/-- C4 counterexample: with the 11-row peek stub, `limit = 500` yields
a 10-row page (the default limit 10 applies, the 11th row is the peek),
while `limit = 100` yields all 11 rows with no next page — the two
requests do not behave identically, so the caller value is not capped
inclusive at 100. -/
theorem claim_C4_counterexample :
    paginate (exPaginatorReq ⟨none, some 500, none, none⟩)
      parseKeyString parseKeyString exPeekFetch ≠
    paginate (exPaginatorReq ⟨none, some 100, none, none⟩)
      parseKeyString parseKeyString exPeekFetch := by
  intro h
  have hlen := congrArg
    (fun r : Except PError (PaginationResponse Nat) =>
      match r with
      | .ok resp => resp.data.length
      | .error _ => 0) h
  revert hlen
  decide

/-- C4 (amended): a paginate request with `limit = 500` (or any value
above 100) behaves identically to a request with `limit` absent — the
effective limit falls back to the default 10; the caller value is not
capped at 100. -/
theorem claim_C4_limit_above_100_defaults {T K1 K2 : Type} (l : Nat)
    (hl : 100 < l) (P : Paginator T)
    (pk1 : List Nat → Except PError K1) (pk2 : List Nat → Except PError K2)
    (fetch : BuiltQuery K1 K2 → Except String (List T)) :
    paginate { P with request_ := { P.request_ with limit := some l } }
      pk1 pk2 fetch =
    paginate { P with request_ := { P.request_ with limit := none } }
      pk1 pk2 fetch := by
  have he : effectiveLimit (some l) = effectiveLimit none := by
    simp only [effectiveLimit]
    rw [if_neg (by omega)]
  unfold paginate buildQuery
  simp [he]

theorem claim_C4_witness :
    100 < 500 ∧
    paginate { exPaginator with request_ :=
        { exPaginator.request_ with limit := some 500 } }
      parseKeyString parseKeyString exPeekFetch =
    paginate { exPaginator with request_ :=
        { exPaginator.request_ with limit := none } }
      parseKeyString parseKeyString exPeekFetch :=
  ⟨by omega, claim_C4_limit_above_100_defaults 500 (by omega) exPaginator
    parseKeyString parseKeyString exPeekFetch⟩

/-- C5: Limit clamp: an absent, zero or above-100 limit is defaulted to
10; a limit in `1..=100` is used as given; and no limit value is ever
rejected — with no cursor and a healthy storage engine, `paginate`
succeeds whatever the limit field holds. -/
theorem claim_C5_limit_clamp :
    effectiveLimit none = 10 ∧
    (∀ l : Nat, l = 0 ∨ 100 < l → effectiveLimit (some l) = 10) ∧
    (∀ l : Nat, 1 ≤ l → l ≤ 100 → effectiveLimit (some l) = l) ∧
    (∀ (T K1 K2 : Type) (P : Paginator T)
       (pk1 : List Nat → Except PError K1)
       (pk2 : List Nat → Except PError K2)
       (fetch : BuiltQuery K1 K2 → Except String (List T)),
       P.request_.cursor = none →
       (∀ q, ∃ rows, fetch q = .ok rows) →
       ∃ resp, paginate P pk1 pk2 fetch = .ok resp) := by
  refine ⟨rfl, ?_, ?_, ?_⟩
  · intro l hl
    simp only [effectiveLimit]
    rw [if_neg (by omega)]
  · intro l h1 h2
    simp only [effectiveLimit]
    rw [if_pos (by omega)]
  · intro T K1 K2 P pk1 pk2 fetch hc hf
    unfold paginate
    have hbq : buildQuery P pk1 pk2 = .ok ⟨smallerFlag P.request_.sort_order,
        effectiveLimit P.request_.limit + 1, [P.keys_.1, P.keys_.2], none⟩ := by
      unfold buildQuery
      simp only [hc]
      rw [if_neg (by simp)]
    rw [hbq]
    rcases hf ⟨smallerFlag P.request_.sort_order,
      effectiveLimit P.request_.limit + 1, [P.keys_.1, P.keys_.2], none⟩
      with ⟨rows, hr⟩
    simp only [hr]
    exact assemblePage_ok P.retrieve_keys_ (effectiveLimit P.request_.limit) rows

theorem claim_C5_witness :
    effectiveLimit (some 0) = 10 ∧ effectiveLimit (some 101) = 10 ∧
    effectiveLimit (some 100) = 100 ∧
    ∃ resp, paginate (exPaginatorReq ⟨none, some 0, none, none⟩)
      parseKeyString parseKeyString (exFetch [7]) = .ok resp :=
  ⟨claim_C5_limit_clamp.2.1 0 (Or.inl rfl),
   claim_C5_limit_clamp.2.1 101 (Or.inr (by omega)),
   claim_C5_limit_clamp.2.2.1 100 (by omega) (by omega),
   claim_C5_limit_clamp.2.2.2 Nat (List Nat) (List Nat)
     (exPaginatorReq ⟨none, some 0, none, none⟩) parseKeyString parseKeyString
     (exFetch [7]) rfl (fun _ => ⟨[7], rfl⟩)⟩

/-- C6: Page-size invariant: whenever the storage query honors the
requested row limit of `effective_limit + 1`, a successful paginate
call returns at most `effective_limit` rows. -/
theorem claim_C6_page_size {T K1 K2 : Type} (P : Paginator T)
    (pk1 : List Nat → Except PError K1) (pk2 : List Nat → Except PError K2)
    (fetch : BuiltQuery K1 K2 → Except String (List T))
    (q : BuiltQuery K1 K2) (rows : List T) (resp : PaginationResponse T)
    (hq : buildQuery P pk1 pk2 = .ok q) (hf : fetch q = .ok rows)
    (hbound : rows.length ≤ q.fetchLimit)
    (hp : paginate P pk1 pk2 fetch = .ok resp) :
    resp.data.length ≤ effectiveLimit P.request_.limit := by
  have hfl : q.fetchLimit = effectiveLimit P.request_.limit + 1 :=
    (buildQuery_ok P pk1 pk2 q hq).2.1
  unfold paginate at hp
  simp only [hq, hf] at hp
  exact assemblePage_length P.retrieve_keys_ (effectiveLimit P.request_.limit)
    rows resp hp (by omega)

theorem claim_C6_witness :
    ∃ resp, paginate exPaginator parseKeyString parseKeyString
      (exFetch (List.range 5)) = .ok resp ∧
      resp.data.length ≤ effectiveLimit exPaginator.request_.limit :=
  ⟨⟨List.range 5, none⟩, rfl,
    claim_C6_page_size exPaginator parseKeyString parseKeyString
      (exFetch (List.range 5)) ⟨true, 11, ["created_at", "id"], none⟩
      (List.range 5) ⟨List.range 5, none⟩ (by decide) rfl (by decide) rfl⟩

/-- C7: Peek technique and conditional predicate: every successfully
built storage query is limited to `effective_limit + 1` rows, ordered
by `(key1, key2)` with the direction taken from the request, and
carries the composite-key range predicate exactly when the request
carried a cursor. -/
theorem claim_C7_peek_query {T K1 K2 : Type} (P : Paginator T)
    (pk1 : List Nat → Except PError K1) (pk2 : List Nat → Except PError K2)
    (q : BuiltQuery K1 K2) (hq : buildQuery P pk1 pk2 = .ok q) :
    q.fetchLimit = effectiveLimit P.request_.limit + 1 ∧
    q.orderKeys = [P.keys_.1, P.keys_.2] ∧
    q.smaller = smallerFlag P.request_.sort_order ∧
    (q.keyRange.isSome ↔ P.request_.cursor.isSome) := by
  obtain ⟨h1, h2, h3, h4⟩ := buildQuery_ok P pk1 pk2 q hq
  exact ⟨h2, h3, h1, h4⟩

theorem claim_C7_witness :
    buildQuery (exPaginatorReq ⟨some (encodeCursor [97] [98]), none, none,
        some SortOrder.Asc⟩) parseKeyString parseKeyString =
      .ok ⟨false, 11, ["created_at", "id"], some ([97], [98])⟩ ∧
    ((⟨false, 11, ["created_at", "id"], some ([97], [98])⟩ :
        BuiltQuery (List Nat) (List Nat)).fetchLimit =
      effectiveLimit (exPaginatorReq ⟨some (encodeCursor [97] [98]), none,
        none, some SortOrder.Asc⟩).request_.limit + 1 ∧
     (⟨false, 11, ["created_at", "id"], some ([97], [98])⟩ :
        BuiltQuery (List Nat) (List Nat)).orderKeys =
      [(exPaginatorReq ⟨some (encodeCursor [97] [98]), none, none,
        some SortOrder.Asc⟩).keys_.1,
       (exPaginatorReq ⟨some (encodeCursor [97] [98]), none, none,
        some SortOrder.Asc⟩).keys_.2] ∧
     (⟨false, 11, ["created_at", "id"], some ([97], [98])⟩ :
        BuiltQuery (List Nat) (List Nat)).smaller =
      smallerFlag (exPaginatorReq ⟨some (encodeCursor [97] [98]), none, none,
        some SortOrder.Asc⟩).request_.sort_order ∧
     ((⟨false, 11, ["created_at", "id"], some ([97], [98])⟩ :
        BuiltQuery (List Nat) (List Nat)).keyRange.isSome ↔
      (exPaginatorReq ⟨some (encodeCursor [97] [98]), none, none,
        some SortOrder.Asc⟩).request_.cursor.isSome)) :=
  ⟨by decide,
   claim_C7_peek_query (exPaginatorReq ⟨some (encodeCursor [97] [98]), none,
     none, some SortOrder.Asc⟩) parseKeyString parseKeyString
     ⟨false, 11, ["created_at", "id"], some ([97], [98])⟩ (by decide)⟩

/-- C8 counterexample: with `sort_order` absent the code leaves the
direction flag at its initial `true` ("strictly less than"), while the
claim requires `smaller = false` for an absent order. -/
theorem claim_C8_counterexample : ¬ smallerFlag none = false := by
  decide

/-- C8 (amended): the comparison direction flag is false ("strictly
greater than") exactly when `sort_order` is `Asc`; it is true
("strictly less than") when `sort_order` is `Desc` or absent, the
initial value of the flag. -/
theorem claim_C8_direction_flag (o : Option SortOrder) :
    smallerFlag o = false ↔ o = some SortOrder.Asc := by
  rcases o with _ | s
  · decide
  · cases s <;> decide

/-- C9: Storage-failure atomicity: when the storage query execution
fails, `paginate` returns the opaque internal error and no page data. -/
theorem claim_C9_storage_failure {T K1 K2 : Type} (P : Paginator T)
    (pk1 : List Nat → Except PError K1) (pk2 : List Nat → Except PError K2)
    (fetch : BuiltQuery K1 K2 → Except String (List T))
    (q : BuiltQuery K1 K2) (e : String)
    (hq : buildQuery P pk1 pk2 = .ok q) (hf : fetch q = .error e) :
    paginate P pk1 pk2 fetch = .error PError.internal := by
  unfold paginate
  simp only [hq, hf]

theorem claim_C9_witness :
    paginate exPaginator parseKeyString parseKeyString
      (fun _ => .error "connection reset") = .error PError.internal :=
  claim_C9_storage_failure exPaginator parseKeyString parseKeyString
    (fun _ => .error "connection reset")
    ⟨true, 11, ["created_at", "id"], none⟩ "connection reset" (by decide) rfl

/-- C10: the next-cursor serialization error branch is unreachable:
serialization of the two extracted key strings always succeeds, so when
the storage engine itself does not fail (and the key parsers return
only invalid-argument errors, as both `KeyParse` impls of `lib.rs` do),
`paginate` never returns the `Internal` error — in particular never the
one attributed to a next-cursor serialization failure. -/
theorem claim_C10_serialize_unreachable :
    (∀ keys : List (List Nat), ∃ bs, serializeCursorJson keys = .ok bs) ∧
    (∀ (T K1 K2 : Type) (P : Paginator T)
       (pk1 : List Nat → Except PError K1)
       (pk2 : List Nat → Except PError K2)
       (fetch : BuiltQuery K1 K2 → Except String (List T)),
       (∀ s, pk1 s ≠ .error PError.internal) →
       (∀ s, pk2 s ≠ .error PError.internal) →
       (∀ q, ∃ rows, fetch q = .ok rows) →
       paginate P pk1 pk2 fetch ≠ .error PError.internal) := by
  refine ⟨fun keys => ⟨jsonEncodeStrings keys, rfl⟩, ?_⟩
  intro T K1 K2 P pk1 pk2 fetch hpk1 hpk2 hf hcontra
  unfold paginate at hcontra
  rcases hb : buildQuery P pk1 pk2 with e | q
  · simp only [hb] at hcontra
    cases hcontra
    rcases buildQuery_error P pk1 pk2 _ hb with h | ⟨s, hs⟩ | ⟨s, hs⟩
    · cases h
    · exact hpk1 s hs
    · exact hpk2 s hs
  · simp only [hb] at hcontra
    rcases hf q with ⟨rows, hr⟩
    simp only [hr] at hcontra
    rcases assemblePage_ok P.retrieve_keys_ (effectiveLimit P.request_.limit)
      rows with ⟨resp, hresp⟩
    rw [hresp] at hcontra
    cases hcontra

theorem claim_C10_witness :
    (∃ bs, serializeCursorJson [[97], [98]] = .ok bs) ∧
    paginate exPaginator parseKeyString parseKeyString
      (exFetch (List.range 11)) ≠ .error PError.internal :=
  ⟨claim_C10_serialize_unreachable.1 [[97], [98]],
   claim_C10_serialize_unreachable.2 Nat (List Nat) (List Nat) exPaginator
     parseKeyString parseKeyString (exFetch (List.range 11))
     (fun s => by simp [parseKeyString]) (fun s => by simp [parseKeyString])
     (fun q => ⟨List.range 11, rfl⟩)⟩

end SqlxCursorPaginator
